import Mathlib

/-!
Shallow embedding of `src/youtube_chapters_demo.py` (utsab/OTIOExamples).

The program extracts timestamped chapter entries from YouTube description
text with the regex `((?:\d+:)+\d{2})[\),\]]*\s(.+)`, converts each
timestamp to seconds with `split(":")` plus Python `int` and
`datetime.timedelta`, builds zero-duration OTIO markers, and assembles a
Timeline / Track / Clip tree.

Modelling conventions:
* Text is `List Char`.  The regex character classes `\d` and `\s` and the
  whitespace stripped by Python `int` are modelled over their ASCII
  fragments (`Char.isDigit`, the six ASCII whitespace characters); the
  source's Unicode-aware classes admit further code points that no claim
  exercises.
* `re.findall` + `matches[0]` is modelled as the leftmost match of the
  pattern; the pattern's backtracking is compiled out: each `\d+:` unit is
  deterministic (a maximal digit run must be followed by a literal colon),
  the `(?:\d+:)+` repetition is tried greedily (longest chain first, as
  the engine does), and `[\),\]]*`, `\s`, `(.+)` are deterministic.
* Python `int(str)` is modelled by `pyInt?` (strip ASCII whitespace,
  optional sign, digits with single underscores between digits); failure
  (`ValueError`) is `none`.
* `datetime.timedelta(hours=h, minutes=m, seconds=s)` normalizes its
  arguments with exact integer arithmetic into days, seconds and
  microseconds and raises `OverflowError` when the normalized day count
  `(h*3600 + m*60 + s).fdiv 86400` has magnitude above 999999999;
  `timedelta_total_seconds?` models this, with `none` for the
  `OverflowError`.  Within that range (|total| < 2^53) the source's
  `total_seconds()` float is exact for integer-second totals, so the
  result is the exact integer total.
* `otio.opentime.from_seconds(s, rate)` belongs to the external
  `opentimelineio` library, which is not part of this repository; it is
  modelled from the spec (round-down-to-nearest-frame quantization).
* Reading the description file is modelled by taking the file's text
  content as input; `readlines` reproduces Python's line splitting
  (each line keeps its trailing newline).
-/

namespace YTDemo

/-- ASCII decimal digit value of a digit character. -/
def digitToNat (c : Char) : Nat := c.toNat - '0'.toNat

/-- The closing-punctuation class `[\),\]]` of the source regex:
`)`, `,` and `]`. -/
def isCloser (c : Char) : Bool := c == ')' || c == ',' || c == ']'

/-- ASCII fragment of Python's `\s` class and of the whitespace stripped
by `int`: space, tab, newline, carriage return, vertical tab, form feed. -/
def isPySpace (c : Char) : Bool :=
  c == ' ' || c == '\t' || c == '\n' || c == '\r' || c == '\x0b' || c == '\x0c'

/-- Longest digit run at the head of the string and the remainder
(the deterministic part of `\d+`). -/
def spanDigits : List Char → List Char × List Char
  | [] => ([], [])
  | c :: cs =>
    if c.isDigit then ((spanDigits cs).1.cons c, (spanDigits cs).2)
    else ([], c :: cs)

/-- One `\d+:` unit of the regex: a nonempty maximal digit run followed by
a literal colon.  Returns the consumed characters (run plus colon) and the
remainder; deterministic because backtracking inside `\d+` can never put a
colon where a digit was. -/
def oneRep (s : List Char) : Option (List Char × List Char) :=
  if (spanDigits s).1 = [] then none
  else
    match (spanDigits s).2 with
    | c :: rest2 => if c = ':' then some ((spanDigits s).1 ++ [':'], rest2) else none
    | [] => none

/-- All ways the greedy repetition `(?:\d+:)+` can match at the head of
the string, longest chain first (the order the regex engine tries them).
Each candidate is the consumed text and the remainder.  `fuel` bounds the
recursion; every unit consumes at least two characters, so fuel equal to
the string length is always sufficient. -/
def repCandidatesFuel : Nat → List Char → List (List Char × List Char)
  | 0, _ => []
  | f + 1, s =>
    match oneRep s with
    | none => []
    | some (p, rest) =>
      ((repCandidatesFuel f rest).map (fun q => (p ++ q.1, q.2))) ++ [(p, rest)]

/-- Candidates for `(?:\d+:)+` at the head of `s`, greedy order. -/
def repCandidates (s : List Char) : List (List Char × List Char) :=
  repCandidatesFuel s.length s

/-- The rest of the pattern after the repetition: `\d{2}[\),\]]*\s(.+)`.
`p` is the text already consumed by the repetition.  On success returns
(full first capture group, title capture group).  `.` does not match a
newline, so the title stops at the end of the line and must be
nonempty. -/
def matchTail (p s : List Char) : Option (List Char × List Char) :=
  match s with
  | d1 :: d2 :: rest =>
    if d1.isDigit && d2.isDigit then
      match rest.dropWhile isCloser with
      | w :: rest3 =>
        if isPySpace w then
          if rest3.takeWhile (fun c => c != '\n') = [] then none
          else some (p ++ [d1, d2], rest3.takeWhile (fun c => c != '\n'))
        else none
      | [] => none
    else none
  | _ => none

/-- First candidate of the repetition whose tail also matches. -/
def firstSome : List (List Char × List Char) → Option (List Char × List Char)
  | [] => none
  | pr :: rest =>
    match matchTail pr.1 pr.2 with
    | some r => some r
    | none => firstSome rest

/-- Match of the whole pattern anchored at the head of `s`. -/
def matchAt (s : List Char) : Option (List Char × List Char) :=
  firstSome (repCandidates s)

/-- Leftmost match of the pattern in the line: the first capture group
(the timestamp) and the second (the title).  This is
`pattern.findall(line)` followed by `matches[0]`. -/
def findFirstMatch : List Char → Option (List Char × List Char)
  | [] => none
  | c :: cs =>
    match matchAt (c :: cs) with
    | some r => some r
    | none => findFirstMatch cs

/-- Helper for `readlines`: accumulates the current line in reverse. -/
def readlinesAux : List Char → List Char → List (List Char)
  | [], acc => if acc.isEmpty then [] else [acc.reverse]
  | c :: cs, acc =>
    if c = '\n' then (acc.reverse ++ ['\n']) :: readlinesAux cs []
    else readlinesAux cs (c :: acc)

/-- Python `f.readlines()` on the file content: split after each newline,
keeping the newline on each line. -/
def readlines (s : List Char) : List (List Char) := readlinesAux s []

/-- The extraction loop of `process_youtube_description`: per line, keep
the first match if any; unmatched lines contribute nothing. -/
def process_lines : List (List Char) → List (List Char × List Char)
  | [] => []
  | l :: ls =>
    match findFirstMatch l with
    | some e => e :: process_lines ls
    | none => process_lines ls

/-- `process_youtube_description`, with the description file replaced by
its text content: read the lines, scan each with the pattern, collect the
first match of each matching line in order. -/
def process_youtube_description (text : List Char) : List (List Char × List Char) :=
  process_lines (readlines text)

/-- Helper for `splitOnColon`: accumulates the current group in reverse. -/
def splitOnColonAux : List Char → List Char → List (List Char)
  | [], acc => [acc.reverse]
  | c :: rest, acc =>
    if c = ':' then acc.reverse :: splitOnColonAux rest []
    else splitOnColonAux rest (c :: acc)

/-- Python `s.split(":")`: always at least one (possibly empty) group. -/
def splitOnColon (s : List Char) : List (List Char) := splitOnColonAux s []

/-- Strip leading and trailing (ASCII) whitespace, as Python `int` does
before parsing. -/
def stripPyWs (s : List Char) : List Char :=
  (((s.dropWhile isPySpace).reverse).dropWhile isPySpace).reverse

/-- Digits with single underscores strictly between digits, continuing an
already-seen digit with accumulated value `acc` (Python `int` literal
body after its first digit).  The flag records that the previous
character was an underscore, which must be followed by a digit. -/
def digitsVal : List Char → Nat → Bool → Option Nat
  | [], acc, afterUnd => if afterUnd then none else some acc
  | c :: rest, acc, afterUnd =>
    if c.isDigit then digitsVal rest (acc * 10 + digitToNat c) false
    else if c = '_' && !afterUnd then digitsVal rest acc true
    else none

/-- Unsigned body of a Python base-10 integer literal: a first digit, then
digits with single underscores between digits. -/
def pyIntDigits? : List Char → Option Nat
  | [] => none
  | c :: rest => if c.isDigit then digitsVal rest (digitToNat c) false else none

/-- Optional sign then unsigned body. -/
def pyIntSigned? : List Char → Option Int
  | [] => none
  | c :: r =>
    if c = '+' then (pyIntDigits? r).map (fun n => (n : Int))
    else if c = '-' then (pyIntDigits? r).map (fun n => -(n : Int))
    else (pyIntDigits? (c :: r)).map (fun n => (n : Int))

/-- Python `int(s)` over ASCII text: `none` models `ValueError`. -/
def pyInt? (s : List Char) : Option Int := pyIntSigned? (stripPyWs s)

/-- A positional group of `convert_time_stamp_to_seconds`: a missing group
keeps the Python default `0`, a present group goes through `int`. -/
def pyGroupInt? : Option (List Char) → Option Int
  | none => some 0
  | some g => pyInt? g

/-- The arithmetic core of `convert_time_stamp_to_seconds` on the
reversed group list: groups beyond index 2 are never examined;
`timedelta(...).total_seconds()` is the exact `h*3600 + m*60 + s`. -/
def convertGroups (gs : List (List Char)) : Option Int :=
  match pyGroupInt? gs[2]?, pyGroupInt? gs[1]?, pyGroupInt? gs[0]? with
  | some h, some m, some s => some (h * 3600 + m * 60 + s)
  | _, _, _ => none

/-- `datetime.timedelta(...).total_seconds()` on an exact integer total
of seconds: the constructor raises `OverflowError` (`none`) when the
normalized day count `total.fdiv 86400` has magnitude above 999999999;
otherwise `total_seconds()` returns the total exactly. -/
def timedelta_total_seconds? (total : Int) : Option Int :=
  if (total.fdiv 86400).natAbs ≤ 999999999 then some total else none

/-- `convert_time_stamp_to_seconds`: split on `:`, reverse, convert the
up-to-three rightmost groups (seconds, minutes, hours), missing groups
default to 0 (`none` models the `ValueError` escaping from `int`), then
build the `timedelta` and take its total seconds (`none` models its
`OverflowError`). -/
def convert_time_stamp_to_seconds (ts : List Char) : Option Int :=
  match convertGroups ((splitOnColon ts).reverse) with
  | none => none
  | some total => timedelta_total_seconds? total

/-- Decimal value of a digit string (specification-side helper used to
state what `int` returns on all-digit input). -/
def decimalVal (l : List Char) : Nat :=
  l.foldl (fun a c => a * 10 + digitToNat c) 0

/-- OTIO `RationalTime`: a frame count at a rate. -/
structure RationalTime where
  value : Int
  rate : ℚ
deriving DecidableEq, Repr

/-- OTIO `TimeRange`. -/
structure TimeRange where
  start_time : RationalTime
  duration : RationalTime
deriving DecidableEq, Repr

/-- OTIO marker colors (the program only uses `RED`). -/
inductive MarkerColor where
  | RED
  | GREEN
deriving DecidableEq, Repr

/-- OTIO `Marker` as used by the program: name, range, color. -/
structure Marker where
  name : List Char
  marked_range : TimeRange
  color : MarkerColor
deriving DecidableEq, Repr

/-- Modelled from the spec: `otio.opentime.from_seconds(seconds, rate)`
belongs to the external `opentimelineio` library (not part of this
repository); per the spec it quantizes the duration with
round-down-to-nearest-frame semantics.  The frame count is
`⌊secs * rate⌋`, computed here on numerators and denominators by
Euclidean integer division so that it evaluates by kernel reduction
(`from_seconds_value` below proves it equal to the floor). -/
def from_seconds (secs rate : ℚ) : RationalTime :=
  ⟨(secs.num * rate.num) / ((secs.den * rate.den : ℕ) : ℤ), rate⟩

/-- `create_markers`: for each chapter, convert the timestamp and build a
RED marker with a zero-frame duration; a conversion failure escapes and
discards the whole batch (`none`). -/
def create_markers : List (List Char × List Char) → ℚ → Option (List Marker)
  | [], _ => some []
  | ch :: rest, fps =>
    match convert_time_stamp_to_seconds ch.1 with
    | none => none
    | some secs =>
      match create_markers rest fps with
      | none => none
      | some ms =>
        some ({ name := ch.2,
                marked_range := ⟨from_seconds (secs : ℚ) fps, from_seconds 0 fps⟩,
                color := MarkerColor.RED } :: ms)

/-- The fields of `dictMeta` that `create_timeline` reads. -/
structure VideoMeta where
  title : String
  duration : ℚ
  fps : ℚ
  webpage_url : String
  upload_date : String
  view_count : Nat
  categories : List String
deriving DecidableEq, Repr

/-- OTIO `ExternalReference` as used by the program; its metadata dict
`\x7b"YouTube": \x7b"original_url": ...\x7d\x7d` is flattened to the one
field the program stores. -/
structure ExternalReference where
  target_url : String
  available_range : TimeRange
  original_url : String
deriving DecidableEq, Repr

/-- OTIO `Clip` as used by the program; its nested metadata dict is
flattened to the three fields the program stores. -/
structure Clip where
  name : String
  upload_date : String
  view_count : Nat
  categories : List String
  media_reference : ExternalReference
  markers : List Marker
deriving DecidableEq, Repr

/-- OTIO `Track`. -/
structure Track where
  name : String
  clips : List Clip
deriving DecidableEq, Repr

/-- OTIO `Timeline`. -/
structure Timeline where
  name : String
  tracks : List Track
deriving DecidableEq, Repr

/-- `create_timeline`, with the description file replaced by its text
content and the final `write_to_file` / `print` (external serializer and
diagnostics) dropped: build the one-timeline / one-track / one-clip tree,
extract the chapters, build the markers, attach them to the clip.  The
unused local `totalFrames = duration * fps` of the source has no effect
and is omitted.  A `ValueError` escaping from marker construction aborts
the call (`none`). -/
def create_timeline (meta : VideoMeta) (video_file : String)
    (description_text : List Char) : Option Timeline :=
  match create_markers (process_youtube_description description_text) meta.fps with
  | none => none
  | some ms =>
    some { name := "Youtube Demo",
           tracks := [{ name := "Videos",
                        clips := [{ name := meta.title,
                                    upload_date := meta.upload_date,
                                    view_count := meta.view_count,
                                    categories := meta.categories,
                                    media_reference :=
                                      { target_url := video_file,
                                        available_range :=
                                          ⟨from_seconds 0 meta.fps,
                                           from_seconds meta.duration meta.fps⟩,
                                        original_url := meta.webpage_url },
                                    markers := ms }] }] }

lemma from_seconds_value (secs rate : ℚ) :
    (from_seconds secs rate).value = ⌊secs * rate⌋ := by
  have h : secs * rate = ((secs.num * rate.num : ℤ) : ℚ) / ((secs.den * rate.den : ℕ) : ℚ) := by
    conv_lhs => rw [← Rat.num_div_den secs, ← Rat.num_div_den rate]
    push_cast
    rw [div_mul_div_comm]
  rw [h, Rat.floor_intCast_div_natCast]
  rfl

/-- A nonempty all-digit character group. -/
abbrev DigitGroup (g : List Char) : Prop := g ≠ [] ∧ ∀ c ∈ g, c.isDigit = true

lemma timedelta_some {total : Int} (h0 : 0 ≤ total) (h1 : total ≤ 86399999999999) :
    timedelta_total_seconds? total = some total := by
  unfold timedelta_total_seconds?
  rw [Int.fdiv_eq_ediv _ (by decide)]
  rw [if_pos (by omega)]

lemma ne_colon_of_isDigit {c : Char} (h : c.isDigit = true) : c ≠ ':' := by
  intro e; subst e; exact absurd h (by decide)

lemma ne_underscore_of_isDigit {c : Char} (h : c.isDigit = true) : c ≠ '_' := by
  intro e; subst e; exact absurd h (by decide)

lemma ne_plus_of_isDigit {c : Char} (h : c.isDigit = true) : c ≠ '+' := by
  intro e; subst e; exact absurd h (by decide)

lemma ne_minus_of_isDigit {c : Char} (h : c.isDigit = true) : c ≠ '-' := by
  intro e; subst e; exact absurd h (by decide)

lemma not_pySpace_of_isDigit {c : Char} (h : c.isDigit = true) : isPySpace c = false := by
  cases hsp : isPySpace c with
  | false => rfl
  | true =>
    exfalso
    simp only [isPySpace, Bool.or_eq_true, beq_iff_eq, or_assoc] at hsp
    rcases hsp with h1 | h1 | h1 | h1 | h1 | h1 <;> (subst h1; exact absurd h (by decide))

lemma splitOnColonAux_nocolon (a : List Char) (h : ∀ c ∈ a, c ≠ ':') :
    ∀ acc, splitOnColonAux a acc = [acc.reverse ++ a] := by
  induction a with
  | nil => intro acc; simp [splitOnColonAux]
  | cons c t ih =>
    intro acc
    have hc : c ≠ ':' := h c (List.mem_cons_self _ _)
    simp only [splitOnColonAux, if_neg hc]
    rw [ih (fun x hx => h x (List.mem_cons_of_mem _ hx)) (c :: acc)]
    simp

lemma splitOnColon_nocolon (a : List Char) (h : ∀ c ∈ a, c ≠ ':') :
    splitOnColon a = [a] := by
  simpa [splitOnColon] using splitOnColonAux_nocolon a h []

lemma splitOnColonAux_cat (y : List Char) :
    ∀ (a acc : List Char),
      splitOnColonAux (a ++ ':' :: y) acc = splitOnColonAux a acc ++ splitOnColon y := by
  intro a
  induction a with
  | nil => intro acc; simp [splitOnColonAux, splitOnColon]
  | cons c t ih =>
    intro acc
    by_cases hc : c = ':'
    · subst hc; simp [splitOnColonAux, ih]
    · simp [splitOnColonAux, hc, ih]

lemma splitOnColon_cat (a y : List Char) :
    splitOnColon (a ++ ':' :: y) = splitOnColon a ++ splitOnColon y :=
  splitOnColonAux_cat y a []

lemma dropWhile_eq_self_of_head (p : Char → Bool) (l : List Char)
    (h : ∀ c ∈ l, p c = false) : l.dropWhile p = l := by
  cases l with
  | nil => rfl
  | cons c t => simp [List.dropWhile_cons, h c (List.mem_cons_self _ _)]

lemma stripPyWs_of_digits (l : List Char) (h : ∀ c ∈ l, c.isDigit = true) :
    stripPyWs l = l := by
  have h1 : ∀ c ∈ l, isPySpace c = false := fun c hc => not_pySpace_of_isDigit (h c hc)
  unfold stripPyWs
  rw [dropWhile_eq_self_of_head _ _ h1]
  rw [dropWhile_eq_self_of_head _ _ (fun c hc => h1 c (List.mem_reverse.mp hc))]
  simp

lemma digitsVal_of_digits (l : List Char) (h : ∀ c ∈ l, c.isDigit = true) :
    ∀ acc, digitsVal l acc false = some (l.foldl (fun a c => a * 10 + digitToNat c) acc) := by
  induction l with
  | nil => intro acc; simp [digitsVal]
  | cons c t ih =>
    intro acc
    have hc := h c (List.mem_cons_self _ _)
    simp only [digitsVal, if_pos hc]
    rw [ih (fun x hx => h x (List.mem_cons_of_mem _ hx))]
    simp [List.foldl_cons]

lemma pyIntDigits?_of_digits (l : List Char) (hne : l ≠ [])
    (h : ∀ c ∈ l, c.isDigit = true) : pyIntDigits? l = some (decimalVal l) := by
  cases l with
  | nil => exact absurd rfl hne
  | cons c t =>
    have hc := h c (List.mem_cons_self _ _)
    simp only [pyIntDigits?, if_pos hc]
    rw [digitsVal_of_digits t (fun x hx => h x (List.mem_cons_of_mem _ hx))]
    simp [decimalVal]

lemma pyInt?_of_digits (l : List Char) (hne : l ≠ [])
    (h : ∀ c ∈ l, c.isDigit = true) :
    pyInt? l = some ((decimalVal l : Nat) : Int) := by
  unfold pyInt?
  rw [stripPyWs_of_digits l h]
  cases l with
  | nil => exact absurd rfl hne
  | cons c t =>
    have hc := h c (List.mem_cons_self _ _)
    simp only [pyIntSigned?, if_neg (ne_plus_of_isDigit hc), if_neg (ne_minus_of_isDigit hc)]
    rw [pyIntDigits?_of_digits (c :: t) (by simp) h]
    simp

lemma convertGroups_cons3 (a b c : List Char) (rest : List (List Char))
    (ha : DigitGroup a) (hb : DigitGroup b) (hc : DigitGroup c) :
    convertGroups (a :: b :: c :: rest) =
      some ((decimalVal c : Int) * 3600 + (decimalVal b : Int) * 60 + (decimalVal a : Int)) := by
  unfold convertGroups
  simp only [List.getElem?_cons_succ, List.getElem?_cons_zero, pyGroupInt?]
  rw [pyInt?_of_digits a ha.1 ha.2, pyInt?_of_digits b hb.1 hb.2, pyInt?_of_digits c hc.1 hc.2]

lemma convertGroups_two (a b : List Char)
    (ha : DigitGroup a) (hb : DigitGroup b) :
    convertGroups [a, b] =
      some ((decimalVal b : Int) * 60 + (decimalVal a : Int)) := by
  unfold convertGroups
  simp only [List.getElem?_cons_succ, List.getElem?_cons_zero, List.getElem?_nil, pyGroupInt?]
  rw [pyInt?_of_digits a ha.1 ha.2, pyInt?_of_digits b hb.1 hb.2]
  simp

lemma convertGroups_one (a : List Char) (ha : DigitGroup a) :
    convertGroups [a] = some ((decimalVal a : Int)) := by
  unfold convertGroups
  simp only [List.getElem?_cons_zero, List.getElem?_nil, pyGroupInt?]
  rw [pyInt?_of_digits a ha.1 ha.2]
  simp

lemma digitGroup_nocolon {g : List Char} (hg : DigitGroup g) : ∀ c ∈ g, c ≠ ':' :=
  fun c hc => ne_colon_of_isDigit (hg.2 c hc)

/-- C1 counterexample: the claim asserts that every valid H:MM:SS
timestamp converts to exactly hours*3600 + minutes*60 + seconds, but at
"24000000000:00:00" (a valid H:MM:SS form, total 86400000000000 seconds,
normalized days 1000000000) the source raises `timedelta`'s
`OverflowError` instead of returning that value. -/
theorem spec_C1_counterexample :
    convert_time_stamp_to_seconds ("24000000000:00:00".toList) = none := by decide

/-- C1 (amended): for every valid timestamp of the form H:MM:SS, M:SS or
SS (each group nonempty and all-numeric) whose total stays within
`timedelta`'s range (normalized days at most 999999999, i.e. total at
most 86399999999999 seconds), `convert_time_stamp_to_seconds` returns
exactly hours*3600 + minutes*60 + seconds, missing minute/hour groups
defaulting to 0, with exact integer arithmetic; beyond that range it
fails with `OverflowError`. -/
theorem spec_C1_amended (hg mg sg : List Char)
    (hh : DigitGroup hg) (hm : DigitGroup mg) (hs : DigitGroup sg)
    (hbound : (decimalVal hg : Int) * 3600 + (decimalVal mg : Int) * 60 + (decimalVal sg : Int)
        ≤ 86399999999999) :
    convert_time_stamp_to_seconds (hg ++ ':' :: (mg ++ ':' :: sg)) =
        some ((decimalVal hg : Int) * 3600 + (decimalVal mg : Int) * 60 + (decimalVal sg : Int))
  ∧ convert_time_stamp_to_seconds (mg ++ ':' :: sg) =
        some ((decimalVal mg : Int) * 60 + (decimalVal sg : Int))
  ∧ convert_time_stamp_to_seconds sg = some ((decimalVal sg : Int)) := by
  have nh : (0 : Int) ≤ (decimalVal hg : Int) := Int.natCast_nonneg _
  have nm : (0 : Int) ≤ (decimalVal mg : Int) := Int.natCast_nonneg _
  have ns : (0 : Int) ≤ (decimalVal sg : Int) := Int.natCast_nonneg _
  have e3 : splitOnColon (hg ++ ':' :: (mg ++ ':' :: sg)) = [hg, mg, sg] := by
    rw [splitOnColon_cat, splitOnColon_cat, splitOnColon_nocolon hg (digitGroup_nocolon hh),
        splitOnColon_nocolon mg (digitGroup_nocolon hm),
        splitOnColon_nocolon sg (digitGroup_nocolon hs)]
    rfl
  have e2 : splitOnColon (mg ++ ':' :: sg) = [mg, sg] := by
    rw [splitOnColon_cat, splitOnColon_nocolon mg (digitGroup_nocolon hm),
        splitOnColon_nocolon sg (digitGroup_nocolon hs)]
    rfl
  have e1 : splitOnColon sg = [sg] := splitOnColon_nocolon sg (digitGroup_nocolon hs)
  have hrev3 : ([hg, mg, sg] : List (List Char)).reverse = [sg, mg, hg] := by simp
  have hrev2 : ([mg, sg] : List (List Char)).reverse = [sg, mg] := by simp
  have hrev1 : ([sg] : List (List Char)).reverse = [sg] := by simp
  refine ⟨?_, ?_, ?_⟩
  · unfold convert_time_stamp_to_seconds
    rw [e3, hrev3, convertGroups_cons3 sg mg hg [] hs hm hh]
    exact timedelta_some (by omega) hbound
  · unfold convert_time_stamp_to_seconds
    rw [e2, hrev2, convertGroups_two sg mg hs hm]
    exact timedelta_some (by omega) (by omega)
  · unfold convert_time_stamp_to_seconds
    rw [e1, hrev1, convertGroups_one sg hs]
    exact timedelta_some ns (by omega)

/-- Witness for C1 at the spec's three examples. -/
theorem spec_C1_witness :
    convert_time_stamp_to_seconds ("01:34:21".toList) = some 5661
  ∧ convert_time_stamp_to_seconds ("4:21".toList) = some 261
  ∧ convert_time_stamp_to_seconds ("34:21".toList) = some 2061 := by
  have h1 := spec_C1_amended ("01".toList) ("34".toList) ("21".toList)
    (by decide) (by decide) (by decide) (by decide)
  have h2 := spec_C1_amended ("0".toList) ("4".toList) ("21".toList)
    (by decide) (by decide) (by decide) (by decide)
  refine ⟨?_, ?_, ?_⟩
  · rw [show ("01:34:21".toList) =
        ("01".toList ++ ':' :: ("34".toList ++ ':' :: "21".toList)) from rfl, h1.1]
    decide
  · rw [show ("4:21".toList) = ("4".toList ++ ':' :: "21".toList) from rfl, h2.2.1]
    decide
  · rw [show ("34:21".toList) = ("34".toList ++ ':' :: "21".toList) from rfl, h1.2.1]
    decide

/-- C2 counterexample: the claim says `convert_time_stamp_to_seconds`
fails on "12:3" because the final group is not two digits; the code
accepts it and returns 12*60+3 = 723. -/
theorem spec_C2_counterexample :
    convert_time_stamp_to_seconds ("12:3".toList) = some 723 := by decide

lemma convertGroups_none_iff (gs : List (List Char)) :
    convertGroups gs = none ↔ ∃ g ∈ gs.take 3, pyInt? g = none := by
  rcases gs with _ | ⟨a, _ | ⟨b, _ | ⟨c, rest⟩⟩⟩
  · simp [convertGroups, pyGroupInt?]
  · rcases h0 : pyInt? a with _ | v <;>
      simp [convertGroups, pyGroupInt?, h0]
  · rcases h0 : pyInt? a with _ | v <;> rcases h1 : pyInt? b with _ | w <;>
      simp [convertGroups, pyGroupInt?, h0, h1]
  · rcases h0 : pyInt? a with _ | v <;> rcases h1 : pyInt? b with _ | w <;>
      rcases h2 : pyInt? c with _ | x <;>
      simp [convertGroups, pyGroupInt?, h0, h1, h2]

/-- C2 (amended): `convert_time_stamp_to_seconds` fails exactly when
Python integer conversion fails on one of the up-to-three rightmost
colon-separated groups, or when every such conversion succeeds but the
resulting total overflows `timedelta`'s day cap; the trailing group is
not required to be two digits.  In particular "a:12" fails, "12:3"
succeeds with 723, and "24000000000:00:00" fails by overflow with every
integer conversion succeeding. -/
theorem spec_C2_amended :
    (∀ ts : List Char,
        convert_time_stamp_to_seconds ts = none ↔
          ((∃ g ∈ ((splitOnColon ts).reverse.take 3), pyInt? g = none)
            ∨ ∃ total : Int,
                convertGroups ((splitOnColon ts).reverse) = some total ∧
                timedelta_total_seconds? total = none))
  ∧ convert_time_stamp_to_seconds ("a:12".toList) = none
  ∧ convert_time_stamp_to_seconds ("12:3".toList) = some 723
  ∧ convert_time_stamp_to_seconds ("24000000000:00:00".toList) = none := by
  refine ⟨fun ts => ?_, by decide, by decide, by decide⟩
  unfold convert_time_stamp_to_seconds
  cases hcg : convertGroups ((splitOnColon ts).reverse) with
  | none =>
    constructor
    · intro _
      exact Or.inl ((convertGroups_none_iff _).mp hcg)
    · intro _
      rfl
  | some total =>
    constructor
    · intro hn
      exact Or.inr ⟨total, rfl, hn⟩
    · rintro (hl | ⟨t2, ht2, hn⟩)
      · have hnone := (convertGroups_none_iff ((splitOnColon ts).reverse)).mpr hl
        rw [hcg] at hnone
        exact Option.noConfusion hnone
      · injection ht2 with he
        rw [he]
        exact hn

/-- C9 counterexample: the claim asserts that an all-numeric timestamp
with more than three groups never fails, but "1:24000000000:00:00" (four
all-numeric groups) fails: after the extra group "1" is dropped, the
remaining total 86400000000000 overflows `timedelta`'s day cap, so the
source raises `OverflowError` rather than succeeding. -/
theorem spec_C9_counterexample :
    convert_time_stamp_to_seconds ("1:24000000000:00:00".toList) = none := by decide

/-- C9 (amended): every group before the three rightmost ones is
silently ignored (whatever it contains): the result — success or
failure — always equals the conversion of the three rightmost groups
alone; and when those three all-numeric groups total at most
86399999999999 seconds (within `timedelta`'s range) the conversion
succeeds with hours*3600 + minutes*60 + seconds. -/
theorem spec_C9_amended (pr hg mg sg : List Char)
    (hh : DigitGroup hg) (hm : DigitGroup mg) (hs : DigitGroup sg) :
    convert_time_stamp_to_seconds (pr ++ ':' :: (hg ++ ':' :: (mg ++ ':' :: sg))) =
        convert_time_stamp_to_seconds (hg ++ ':' :: (mg ++ ':' :: sg))
  ∧ ((decimalVal hg : Int) * 3600 + (decimalVal mg : Int) * 60 + (decimalVal sg : Int)
        ≤ 86399999999999 →
      convert_time_stamp_to_seconds (pr ++ ':' :: (hg ++ ':' :: (mg ++ ':' :: sg))) =
        some ((decimalVal hg : Int) * 3600 + (decimalVal mg : Int) * 60 + (decimalVal sg : Int))) := by
  have nh : (0 : Int) ≤ (decimalVal hg : Int) := Int.natCast_nonneg _
  have nm : (0 : Int) ≤ (decimalVal mg : Int) := Int.natCast_nonneg _
  have ns : (0 : Int) ≤ (decimalVal sg : Int) := Int.natCast_nonneg _
  have e4 : splitOnColon (pr ++ ':' :: (hg ++ ':' :: (mg ++ ':' :: sg))) =
      splitOnColon pr ++ [hg, mg, sg] := by
    rw [splitOnColon_cat, splitOnColon_cat, splitOnColon_cat,
        splitOnColon_nocolon hg (digitGroup_nocolon hh),
        splitOnColon_nocolon mg (digitGroup_nocolon hm),
        splitOnColon_nocolon sg (digitGroup_nocolon hs)]
    rfl
  have e3 : splitOnColon (hg ++ ':' :: (mg ++ ':' :: sg)) = [hg, mg, sg] := by
    rw [splitOnColon_cat, splitOnColon_cat, splitOnColon_nocolon hg (digitGroup_nocolon hh),
        splitOnColon_nocolon mg (digitGroup_nocolon hm),
        splitOnColon_nocolon sg (digitGroup_nocolon hs)]
    rfl
  have hrev4 : (splitOnColon pr ++ [hg, mg, sg]).reverse =
      sg :: mg :: hg :: (splitOnColon pr).reverse := by simp
  have hrev3 : ([hg, mg, sg] : List (List Char)).reverse = [sg, mg, hg] := by simp
  have hcg4 := convertGroups_cons3 sg mg hg ((splitOnColon pr).reverse) hs hm hh
  have hcg3 := convertGroups_cons3 sg mg hg [] hs hm hh
  constructor
  · unfold convert_time_stamp_to_seconds
    rw [e4, e3, hrev4, hrev3, hcg4, hcg3]
  · intro hb
    unfold convert_time_stamp_to_seconds
    rw [e4, hrev4, hcg4]
    exact timedelta_some (by omega) hb

/-- Witness for C9 at the spec's example "1:02:03:04". -/
theorem spec_C9_witness :
    convert_time_stamp_to_seconds ("1:02:03:04".toList) = some 7384
  ∧ convert_time_stamp_to_seconds ("1:02:03:04".toList) =
      convert_time_stamp_to_seconds ("02:03:04".toList) := by
  have h := spec_C9_amended ("1".toList) ("02".toList) ("03".toList) ("04".toList)
    (by decide) (by decide) (by decide)
  refine ⟨?_, ?_⟩
  · rw [show ("1:02:03:04".toList) =
        ("1".toList ++ ':' :: ("02".toList ++ ':' :: ("03".toList ++ ':' :: "04".toList))) from rfl,
      h.2 (by decide)]
    decide
  · rw [show ("1:02:03:04".toList) =
        ("1".toList ++ ':' :: ("02".toList ++ ':' :: ("03".toList ++ ':' :: "04".toList))) from rfl,
      h.1]
    rfl

lemma spanDigits_all (s : List Char) : ∀ c ∈ (spanDigits s).1, c.isDigit = true := by
  induction s with
  | nil => simp [spanDigits]
  | cons c cs ih =>
    by_cases hc : c.isDigit
    · simp only [spanDigits, if_pos hc]
      intro x hx
      rcases List.mem_cons.mp hx with rfl | hx
      · exact hc
      · exact ih x hx
    · simp [spanDigits, hc]

/-- The text a `(?:\d+:)+`-candidate has consumed: a nonempty sequence of
blocks, each a nonempty digit run followed by a colon. -/
inductive Blocks : List Char → Prop where
  | one (run : List Char) (hne : run ≠ []) (hdig : ∀ c ∈ run, c.isDigit = true) :
      Blocks (run ++ [':'])
  | cat (p q : List Char) (hp : Blocks p) (hq : Blocks q) : Blocks (p ++ q)

lemma oneRep_shape {s p rest : List Char} (h : oneRep s = some (p, rest)) :
    Blocks p := by
  unfold oneRep at h
  split at h
  · exact Option.noConfusion h
  · rename_i hne
    split at h
    · split at h
      · rename_i heq
        injection h with h1
        injection h1 with h2 h3
        subst h2
        exact Blocks.one _ hne (spanDigits_all s)
      · exact Option.noConfusion h
    · exact Option.noConfusion h

lemma repCandidatesFuel_blocks :
    ∀ (f : Nat) (s p rest : List Char), (p, rest) ∈ repCandidatesFuel f s → Blocks p := by
  intro f
  induction f with
  | zero => intro s p rest h; simp [repCandidatesFuel] at h
  | succ f ih =>
    intro s p rest h
    simp only [repCandidatesFuel] at h
    cases ho : oneRep s with
    | none => rw [ho] at h; simp at h
    | some pr =>
      cases pr with
      | mk p0 rest0 =>
        rw [ho] at h
        have hb0 : Blocks p0 := oneRep_shape ho
        rcases List.mem_append.mp h with hm | hm
        · obtain ⟨q, hq, heq⟩ := List.mem_map.mp hm
          have hbq : Blocks q.1 := ih rest0 q.1 q.2 (by simpa using hq)
          have hp : p = p0 ++ q.1 := by
            have := congrArg Prod.fst heq
            simpa using this.symm
          rw [hp]
          exact Blocks.cat _ _ hb0 hbq
        · have hp : p = p0 := by
            rcases List.mem_singleton.mp hm with heq
            have := congrArg Prod.fst heq
            simpa using this
          rw [hp]
          exact hb0

lemma matchTail_shape {p s ts ti : List Char} (h : matchTail p s = some (ts, ti)) :
    ∃ d1 d2, ts = p ++ [d1, d2] ∧ d1.isDigit = true ∧ d2.isDigit = true := by
  unfold matchTail at h
  split at h
  · rename_i d1 d2 rest
    split at h
    · rename_i hdd
      split at h
      · split at h
        · split at h
          · exact Option.noConfusion h
          · injection h with h1
            injection h1 with h2 h3
            exact ⟨d1, d2, h2.symm, (Bool.and_eq_true _ _ |>.mp hdd).1,
              (Bool.and_eq_true _ _ |>.mp hdd).2⟩
        · exact Option.noConfusion h
      · exact Option.noConfusion h
    · exact Option.noConfusion h
  · exact Option.noConfusion h

lemma firstSome_mem {cs : List (List Char × List Char)} {r : List Char × List Char}
    (h : firstSome cs = some r) :
    ∃ pr ∈ cs, matchTail pr.1 pr.2 = some r := by
  induction cs with
  | nil => simp [firstSome] at h
  | cons pr rest ih =>
    simp only [firstSome] at h
    cases hm : matchTail pr.1 pr.2 with
    | some r2 =>
      rw [hm] at h
      injection h with h1
      exact ⟨pr, List.mem_cons_self _ _, h1 ▸ hm⟩
    | none =>
      rw [hm] at h
      obtain ⟨pr2, hmem, heq⟩ := ih h
      exact ⟨pr2, List.mem_cons_of_mem _ hmem, heq⟩

/-- Shape of every timestamp the extractor can produce: block sequence
followed by exactly two digits. -/
def TsShape (ts : List Char) : Prop :=
  ∃ p d1 d2, Blocks p ∧ ts = p ++ [d1, d2] ∧ d1.isDigit = true ∧ d2.isDigit = true

lemma matchAt_shape {s ts ti : List Char} (h : matchAt s = some (ts, ti)) :
    TsShape ts := by
  obtain ⟨pr, hmem, hmt⟩ := firstSome_mem h
  obtain ⟨d1, d2, heq, hd1, hd2⟩ := matchTail_shape hmt
  have hb : Blocks pr.1 :=
    repCandidatesFuel_blocks s.length s pr.1 pr.2 (by simpa using hmem)
  exact ⟨pr.1, d1, d2, hb, heq, hd1, hd2⟩

lemma findFirstMatch_shape :
    ∀ (l : List Char) {ts ti : List Char}, findFirstMatch l = some (ts, ti) → TsShape ts := by
  intro l
  induction l with
  | nil => intro ts ti h; simp [findFirstMatch] at h
  | cons c cs ih =>
    intro ts ti h
    simp only [findFirstMatch] at h
    cases hm : matchAt (c :: cs) with
    | some r =>
      rw [hm] at h
      injection h with h1
      subst h1
      exact matchAt_shape hm
    | none =>
      rw [hm] at h
      exact ih h

lemma process_lines_shape :
    ∀ (lines : List (List Char)) (e : List Char × List Char),
      e ∈ process_lines lines → TsShape e.1 := by
  intro lines
  induction lines with
  | nil => intro e h; simp [process_lines] at h
  | cons l ls ih =>
    intro e h
    simp only [process_lines] at h
    cases hm : findFirstMatch l with
    | some e0 =>
      rw [hm] at h
      rcases List.mem_cons.mp h with rfl | h2
      · exact @findFirstMatch_shape l e.1 e.2 (by simpa using hm)
      · exact ih e h2
    | none =>
      rw [hm] at h
      exact ih e h

lemma two_digits_nocolon {d1 d2 : Char} (h1 : d1.isDigit = true) (h2 : d2.isDigit = true) :
    ∀ c ∈ [d1, d2], c ≠ ':' := by
  intro c hc
  rcases List.mem_cons.mp hc with rfl | hc
  · exact ne_colon_of_isDigit h1
  · rcases List.mem_singleton.mp hc with rfl
    exact ne_colon_of_isDigit h2

lemma blocks_split {p : List Char} (hb : Blocks p) :
    ∃ runs : List (List Char),
      (∀ r ∈ runs, r ≠ [] ∧ ∀ c ∈ r, c.isDigit = true) ∧
      ∀ y, splitOnColon (p ++ y) = runs ++ splitOnColon y := by
  induction hb with
  | one run hne hdig =>
    refine ⟨[run], ?_, ?_⟩
    · intro r hr
      rcases List.mem_singleton.mp hr with rfl
      exact ⟨hne, hdig⟩
    · intro y
      have hassoc : run ++ [':'] ++ y = run ++ ':' :: y := by simp
      rw [hassoc, splitOnColon_cat,
        splitOnColon_nocolon run (fun c hc => ne_colon_of_isDigit (hdig c hc))]
  | cat p q hp hq ihp ihq =>
    obtain ⟨rp, hrp, hsp⟩ := ihp
    obtain ⟨rq, hrq, hsq⟩ := ihq
    refine ⟨rp ++ rq, ?_, ?_⟩
    · intro r hr
      rcases List.mem_append.mp hr with h | h
      exacts [hrp r h, hrq r h]
    · intro y
      rw [List.append_assoc, hsp (q ++ y), hsq y, List.append_assoc]

lemma pyGroupInt?_isSome {o : Option (List Char)}
    (h : ∀ g, o = some g → DigitGroup g) : (pyGroupInt? o).isSome = true := by
  cases o with
  | none => rfl
  | some g =>
    obtain ⟨h1, h2⟩ := h g rfl
    simp [pyGroupInt?, pyInt?_of_digits g h1 h2]

lemma convertGroups_isSome (gs : List (List Char)) (h : ∀ g ∈ gs, DigitGroup g) :
    (convertGroups gs).isSome = true := by
  have h2 : ∀ i : Nat, ∀ g, gs[i]? = some g → DigitGroup g :=
    fun i g hg => h g (List.getElem?_mem hg)
  obtain ⟨a, ha⟩ := Option.isSome_iff_exists.mp (pyGroupInt?_isSome (h2 2))
  obtain ⟨b, hb⟩ := Option.isSome_iff_exists.mp (pyGroupInt?_isSome (h2 1))
  obtain ⟨c, hc⟩ := Option.isSome_iff_exists.mp (pyGroupInt?_isSome (h2 0))
  unfold convertGroups
  rw [ha, hb, hc]
  rfl

lemma tsShape_split {ts : List Char} (h : TsShape ts) :
    ∃ runs d1 d2, splitOnColon ts = runs ++ [[d1, d2]] ∧
      d1.isDigit = true ∧ d2.isDigit = true ∧
      ∀ g ∈ runs, g ≠ [] ∧ ∀ c ∈ g, c.isDigit = true := by
  obtain ⟨p, d1, d2, hb, rfl, hd1, hd2⟩ := h
  obtain ⟨runs, hruns, hsplit⟩ := blocks_split hb
  refine ⟨runs, d1, d2, ?_, hd1, hd2, hruns⟩
  rw [hsplit [d1, d2], splitOnColon_nocolon [d1, d2] (two_digits_nocolon hd1 hd2)]

lemma tsShape_convertGroups_isSome {ts : List Char} (h : TsShape ts) :
    (convertGroups ((splitOnColon ts).reverse)).isSome = true := by
  obtain ⟨runs, d1, d2, hsplit, hd1, hd2, hruns⟩ := tsShape_split h
  rw [hsplit, List.reverse_append]
  apply convertGroups_isSome
  intro g hg
  rcases List.mem_append.mp hg with hgl | hgr
  · rcases List.mem_singleton.mp (by simpa using hgl) with rfl
    refine ⟨by simp, ?_⟩
    intro c hc
    rcases List.mem_cons.mp hc with rfl | hc
    · exact hd1
    · rcases List.mem_singleton.mp hc with rfl
      exact hd2
  · exact hruns g (List.mem_reverse.mp hgr)

lemma create_markers_length :
    ∀ (chs : List (List Char × List Char)) (F : ℚ) (ms : List Marker),
      create_markers chs F = some ms → ms.length = chs.length := by
  intro chs
  induction chs with
  | nil =>
    intro F ms h
    injection h with h1
    rw [← h1]
    rfl
  | cons ch rest ih =>
    intro F ms h
    simp only [create_markers] at h
    cases hc : convert_time_stamp_to_seconds ch.1 with
    | none => rw [hc] at h; exact Option.noConfusion h
    | some D =>
      rw [hc] at h
      cases hr : create_markers rest F with
      | none => rw [hr] at h; exact Option.noConfusion h
      | some ms0 =>
        rw [hr] at h
        injection h with h1
        rw [← h1]
        simp [ih F ms0 hr]

lemma create_markers_isSome_iff (chs : List (List Char × List Char)) (F : ℚ) :
    (create_markers chs F).isSome = true ↔
      ∀ e ∈ chs, (convert_time_stamp_to_seconds e.1).isSome = true := by
  induction chs with
  | nil =>
    constructor
    · intro _ e he
      simp at he
    · intro _
      rfl
  | cons ch rest ih =>
    constructor
    · intro h e he
      cases hc : convert_time_stamp_to_seconds ch.1 with
      | none =>
        exfalso
        simp only [create_markers] at h
        rw [hc] at h
        simp at h
      | some D =>
        cases hr : create_markers rest F with
        | none =>
          exfalso
          simp only [create_markers] at h
          rw [hc, hr] at h
          simp at h
        | some ms =>
          rcases List.mem_cons.mp he with rfl | hmem
          · rw [hc]
            rfl
          · exact (ih.mp (by rw [hr]; rfl)) e hmem
    · intro hall
      obtain ⟨D, hD⟩ :=
        Option.isSome_iff_exists.mp (hall ch (List.mem_cons_self _ _))
      have hrest : (create_markers rest F).isSome = true :=
        ih.mpr (fun e he => hall e (List.mem_cons_of_mem _ he))
      obtain ⟨ms, hms⟩ := Option.isSome_iff_exists.mp hrest
      simp only [create_markers]
      rw [hD, hms]
      rfl

lemma create_markers_isSome_congr (chs : List (List Char × List Char)) (F1 F2 : ℚ) :
    (create_markers chs F1).isSome = (create_markers chs F2).isSome := by
  by_cases h : ∀ e ∈ chs, (convert_time_stamp_to_seconds e.1).isSome = true
  · rw [(create_markers_isSome_iff chs F1).mpr h, (create_markers_isSome_iff chs F2).mpr h]
  · have e1 : (create_markers chs F1).isSome = false := by
      cases hb : (create_markers chs F1).isSome with
      | false => rfl
      | true => exact absurd ((create_markers_isSome_iff chs F1).mp hb) h
    have e2 : (create_markers chs F2).isSome = false := by
      cases hb : (create_markers chs F2).isSome with
      | false => rfl
      | true => exact absurd ((create_markers_isSome_iff chs F2).mp hb) h
    rw [e1, e2]

lemma create_timeline_isSome (meta : VideoMeta) (vf : String) (text : List Char) :
    (create_timeline meta vf text).isSome =
      (create_markers (process_youtube_description text) meta.fps).isSome := by
  unfold create_timeline
  cases h : create_markers (process_youtube_description text) meta.fps with
  | none => rfl
  | some ms => rfl

/-- C10 counterexample: the claim asserts `create_markers` on extractor
output is total, but the extractor accepts the line "1440000000000:00 T"
whose timestamp totals 86400000000000 seconds; conversion raises
`timedelta`'s `OverflowError`, so `create_markers` on this extractor
output fails. -/
theorem spec_C10_counterexample :
    create_markers (process_youtube_description ("1440000000000:00 T\n".toList)) 24
      = none := by decide

/-- C10 (amended): every timestamp produced by the extractor consists
solely of colon-separated nonempty decimal-digit groups ending in a
two-digit group, so the integer-conversion stage always succeeds on
extractor output (the `int` ValueError branch is unreachable); the only
way conversion can fail is `timedelta`'s overflow, and whenever no
extracted timestamp overflows, `create_markers` on the extractor output
succeeds. -/
theorem spec_C10_amended (text : List Char) (F : ℚ) :
    (∀ e ∈ process_youtube_description text,
        (∃ gs d1 d2, splitOnColon e.1 = gs ++ [[d1, d2]] ∧
            d1.isDigit = true ∧ d2.isDigit = true ∧
            ∀ g ∈ gs, g ≠ [] ∧ ∀ c ∈ g, c.isDigit = true)
      ∧ (convertGroups ((splitOnColon e.1).reverse)).isSome = true
      ∧ (convert_time_stamp_to_seconds e.1 = none →
          ∃ total : Int,
            convertGroups ((splitOnColon e.1).reverse) = some total ∧
            timedelta_total_seconds? total = none))
  ∧ ((∀ e ∈ process_youtube_description text,
        (convert_time_stamp_to_seconds e.1).isSome = true) →
      (create_markers (process_youtube_description text) F).isSome = true) := by
  constructor
  · intro e he
    have hts := process_lines_shape _ e he
    have hcg := tsShape_convertGroups_isSome hts
    refine ⟨tsShape_split hts, hcg, ?_⟩
    intro hn
    obtain ⟨total, ht⟩ := Option.isSome_iff_exists.mp hcg
    refine ⟨total, ht, ?_⟩
    unfold convert_time_stamp_to_seconds at hn
    rw [ht] at hn
    exact hn
  · intro hall
    exact (create_markers_isSome_iff _ F).mpr hall

/-- Witness for C10 at the description text "0:05 Intro\n" and frame
rate 24, with the extracted entry ("0:05", "Intro"). -/
theorem spec_C10_witness :
    (convertGroups ((splitOnColon ("0:05".toList)).reverse)).isSome = true
  ∧ (create_markers (process_youtube_description ("0:05 Intro\n".toList)) 24).isSome = true := by
  have h := spec_C10_amended ("0:05 Intro\n".toList) 24
  have hm : (("0:05".toList, "Intro".toList)) ∈
      process_youtube_description ("0:05 Intro\n".toList) := by decide
  exact ⟨(h.1 _ hm).2.1, h.2 (by decide)⟩

/-- C3 counterexample: with durationSeconds = -1 and frameRate = 0
(violating both stated preconditions) `create_timeline` does not fail
fast: it succeeds and produces a timeline. -/
theorem spec_C3_counterexample :
    (create_timeline ⟨"t", -1, 0, "u", "d", 0, []⟩ "v" ("0:05 Intro\n".toList)).isSome
      = true := by decide

/-- C3 (amended): `create_timeline` performs no validation of the
metadata: it never raises InvalidVideoMetadata or InvalidFrameRate, and
whether it succeeds is entirely independent of the metadata record
(negative duration and non-positive frame rate included) — it can fail
only by propagating the conversion `OverflowError` from the description
text; whenever every extracted timestamp converts, it returns a
timeline. -/
theorem spec_C3_amended (meta1 meta2 : VideoMeta) (vf1 vf2 : String) (text : List Char) :
    (create_timeline meta1 vf1 text).isSome = (create_timeline meta2 vf2 text).isSome
  ∧ ((∀ e ∈ process_youtube_description text,
        (convert_time_stamp_to_seconds e.1).isSome = true) →
      ∃ tl, create_timeline meta1 vf1 text = some tl) := by
  constructor
  · rw [create_timeline_isSome, create_timeline_isSome]
    exact create_markers_isSome_congr _ _ _
  · intro hall
    have hs : (create_timeline meta1 vf1 text).isSome = true := by
      rw [create_timeline_isSome]
      exact (create_markers_isSome_iff _ _).mpr hall
    exact Option.isSome_iff_exists.mp hs

/-- Witness for C3 at the precondition-violating metadata
(durationSeconds = -1, frameRate = 0) against a benign metadata record,
on the in-range text "0:05 Intro\n". -/
theorem spec_C3_witness :
    ((create_timeline ⟨"t", -1, 0, "u", "d", 0, []⟩ "v" ("0:05 Intro\n".toList)).isSome
        = (create_timeline ⟨"s", 10, 24, "w", "e", 1, ["c"]⟩ "x" ("0:05 Intro\n".toList)).isSome)
  ∧ ∃ tl, create_timeline ⟨"t", -1, 0, "u", "d", 0, []⟩ "v" ("0:05 Intro\n".toList) = some tl := by
  have h := spec_C3_amended ⟨"t", -1, 0, "u", "d", 0, []⟩ ⟨"s", 10, 24, "w", "e", 1, ["c"]⟩
    "v" "x" ("0:05 Intro\n".toList)
  exact ⟨h.1, h.2 (by decide)⟩

/-- C6 counterexample: the claim asserts `create_timeline` produces a
timeline for every input, but on the description text
"1440000000000:00 T\n" marker construction raises `timedelta`'s
`OverflowError`, which propagates: no timeline is produced. -/
theorem spec_C6_counterexample :
    create_timeline ⟨"t", 10, 24, "u", "d", 0, []⟩ "v" ("1440000000000:00 T\n".toList)
      = none := by decide

/-- C6 (amended): whenever marker building succeeds (its propagated
`OverflowError` is not raised), one call of `create_timeline` produces
exactly one Timeline with exactly one Track containing exactly one Clip,
whose marker list is exactly the built marker list (equal length, same
order, one marker per extracted chapter), including the zero-marker
case; when marker building fails, the failure propagates and no
timeline is produced. -/
theorem spec_C6_amended (meta : VideoMeta) (vf : String) (text : List Char)
    (ms : List Marker)
    (hms : create_markers (process_youtube_description text) meta.fps = some ms) :
    ∃ tr cl,
      create_timeline meta vf text = some { name := "Youtube Demo", tracks := [tr] } ∧
      tr.clips = [cl] ∧ cl.markers = ms ∧
      ms.length = (process_youtube_description text).length := by
  refine ⟨
    { name := "Videos",
      clips := [{ name := meta.title, upload_date := meta.upload_date,
                  view_count := meta.view_count, categories := meta.categories,
                  media_reference :=
                    { target_url := vf,
                      available_range :=
                        ⟨from_seconds 0 meta.fps, from_seconds meta.duration meta.fps⟩,
                      original_url := meta.webpage_url },
                  markers := ms }] },
    { name := meta.title, upload_date := meta.upload_date,
      view_count := meta.view_count, categories := meta.categories,
      media_reference :=
        { target_url := vf,
          available_range :=
            ⟨from_seconds 0 meta.fps, from_seconds meta.duration meta.fps⟩,
          original_url := meta.webpage_url },
      markers := ms },
    ?_, rfl, rfl, create_markers_length _ _ _ hms⟩
  unfold create_timeline
  rw [hms]

/-- Witness for C6 at fps 24 and the in-range text "0:05 Intro\n",
whose one chapter builds the single marker Intro at frame 120. -/
theorem spec_C6_witness :
    ∃ tr cl,
      create_timeline ⟨"t", 10, 24, "u", "d", 0, []⟩ "v" ("0:05 Intro\n".toList) =
        some { name := "Youtube Demo", tracks := [tr] } ∧
      tr.clips = [cl] ∧
      cl.markers = [{ name := "Intro".toList, marked_range := ⟨⟨120, 24⟩, ⟨0, 24⟩⟩,
                      color := MarkerColor.RED }] ∧
      ([{ name := "Intro".toList, marked_range := ⟨⟨120, 24⟩, ⟨0, 24⟩⟩,
          color := MarkerColor.RED }] : List Marker).length =
        (process_youtube_description ("0:05 Intro\n".toList)).length :=
  spec_C6_amended ⟨"t", 10, 24, "u", "d", 0, []⟩ "v" ("0:05 Intro\n".toList)
    [{ name := "Intro".toList, marked_range := ⟨⟨120, 24⟩, ⟨0, 24⟩⟩,
       color := MarkerColor.RED }]
    (by decide)

/-- C7: the extractor never fails and is lenient: over any list of lines
it returns exactly one entry per matching line (so exactly K entries when
K lines match), in the original line order, each entry being the first
match of its line; a line with no match, such as "see the trailer",
contributes nothing. -/
theorem spec_C7 (lines : List (List Char)) :
    (process_lines lines).length = lines.countP (fun l => (findFirstMatch l).isSome)
  ∧ process_lines lines =
      (lines.filter (fun l => (findFirstMatch l).isSome)).map
        (fun l => (findFirstMatch l).getD ([], []))
  ∧ findFirstMatch ("see the trailer\n".toList) = none := by
  have h1 : ∀ ls : List (List Char),
      (process_lines ls).length = ls.countP (fun l => (findFirstMatch l).isSome) := by
    intro ls
    induction ls with
    | nil => rfl
    | cons l t ih =>
      cases hm : findFirstMatch l with
      | some e => simp [process_lines, hm, List.countP_cons, ih]
      | none => simp [process_lines, hm, List.countP_cons, ih]
  have h2 : ∀ ls : List (List Char),
      process_lines ls =
        (ls.filter (fun l => (findFirstMatch l).isSome)).map
          (fun l => (findFirstMatch l).getD ([], [])) := by
    intro ls
    induction ls with
    | nil => rfl
    | cons l t ih =>
      cases hm : findFirstMatch l with
      | some e => simp [process_lines, hm, List.filter_cons, ih]
      | none => simp [process_lines, hm, List.filter_cons, ih]
  exact ⟨h1 lines, h2 lines, by decide⟩

/-- C8: on the line "(00:12:15) Thor fights Thanos" the extractor yields
exactly one entry, timestamp "00:12:15" and title "Thor fights Thanos":
the leading parenthesis is tolerated because only the digits-and-colons
portion is matched, and a stray ")" with no matching "(" is consumed
just the same. -/
theorem spec_C8 :
    process_youtube_description ("(00:12:15) Thor fights Thanos\n".toList) =
      [("00:12:15".toList, "Thor fights Thanos".toList)]
  ∧ process_youtube_description ("00:12:15) Thor fights Thanos\n".toList) =
      [("00:12:15".toList, "Thor fights Thanos".toList)] := ⟨rfl, rfl⟩

/-- C4: every marker built by `create_markers` at frame rate F from an
entry whose timestamp converts to D seconds has start frames ⌊D * F⌋
(round-down frame quantization, the spec's model of the external
`from_seconds`) and a zero-frame duration. -/
theorem spec_C4 (chs : List (List Char × List Char)) (F : ℚ)
    (ms : List Marker) (h : create_markers chs F = some ms)
    (i : Nat) (ch : List Char × List Char) (m : Marker)
    (hch : chs[i]? = some ch) (hm : ms[i]? = some m) :
    ∃ D : Int, convert_time_stamp_to_seconds ch.1 = some D ∧
      m.marked_range.start_time.value = ⌊(D : ℚ) * F⌋ ∧
      m.marked_range.duration.value = 0 := by
  induction chs generalizing ms i with
  | nil => simp at hch
  | cons ch0 rest ih =>
    simp only [create_markers] at h
    cases hc : convert_time_stamp_to_seconds ch0.1 with
    | none => rw [hc] at h; exact Option.noConfusion h
    | some D0 =>
      rw [hc] at h
      cases hr : create_markers rest F with
      | none => rw [hr] at h; exact Option.noConfusion h
      | some ms0 =>
        rw [hr] at h
        injection h with h1
        subst h1
        cases i with
        | zero =>
          simp only [List.getElem?_cons_zero] at hch hm
          injection hch with hch1
          injection hm with hm1
          subst hch1
          subst hm1
          refine ⟨D0, hc, ?_, ?_⟩
          · exact from_seconds_value _ _
          · rw [from_seconds_value]
            simp
        | succ n =>
          simp only [List.getElem?_cons_succ] at hch hm
          exact ih ms0 hr n hch hm

/-- Witness for C4 at the entry ("4:21", "t") and frame rate 24:
261 seconds quantize to start frame ⌊261 * 24⌋ = 6264, duration 0. -/
theorem spec_C4_witness :
    ∃ D : Int, convert_time_stamp_to_seconds ("4:21".toList) = some D ∧
      (({ name := "t".toList,
          marked_range := ⟨⟨6264, 24⟩, ⟨0, 24⟩⟩,
          color := MarkerColor.RED } : Marker)).marked_range.start_time.value = ⌊(D : ℚ) * 24⌋ ∧
      (({ name := "t".toList,
          marked_range := ⟨⟨6264, 24⟩, ⟨0, 24⟩⟩,
          color := MarkerColor.RED } : Marker)).marked_range.duration.value = 0 :=
  spec_C4 [("4:21".toList, "t".toList)] 24
    [{ name := "t".toList, marked_range := ⟨⟨6264, 24⟩, ⟨0, 24⟩⟩, color := MarkerColor.RED }]
    (by decide) 0 ("4:21".toList, "t".toList)
    { name := "t".toList, marked_range := ⟨⟨6264, 24⟩, ⟨0, 24⟩⟩, color := MarkerColor.RED }
    (by decide) (by decide)

/-- C5: end-to-end on the description text "0:05 Intro\n1:30 Main\n" at
frame rate 24 (all other metadata arbitrary), the pipeline produces one
Clip with exactly two markers, "Intro" at start frame 120 and "Main" at
start frame 2160, both with zero-frame duration, both RED, in that
order. -/
theorem spec_C5 (title wu ud : String) (dur : ℚ) (vc : Nat) (cats : List String)
    (vf : String) :
    create_timeline ⟨title, dur, 24, wu, ud, vc, cats⟩ vf
        ("0:05 Intro\n1:30 Main\n".toList) =
      some { name := "Youtube Demo",
             tracks := [{ name := "Videos",
                          clips := [{ name := title, upload_date := ud, view_count := vc,
                                      categories := cats,
                                      media_reference :=
                                        { target_url := vf,
                                          available_range := ⟨⟨0, 24⟩, from_seconds dur 24⟩,
                                          original_url := wu },
                                      markers := [
                                        { name := "Intro".toList,
                                          marked_range := ⟨⟨120, 24⟩, ⟨0, 24⟩⟩,
                                          color := MarkerColor.RED },
                                        { name := "Main".toList,
                                          marked_range := ⟨⟨2160, 24⟩, ⟨0, 24⟩⟩,
                                          color := MarkerColor.RED }] }] }] } := by
  have hm : create_markers
      (process_youtube_description ("0:05 Intro\n1:30 Main\n".toList)) 24 = some [
    { name := "Intro".toList, marked_range := ⟨⟨120, 24⟩, ⟨0, 24⟩⟩,
      color := MarkerColor.RED },
    { name := "Main".toList, marked_range := ⟨⟨2160, 24⟩, ⟨0, 24⟩⟩,
      color := MarkerColor.RED }] := rfl
  unfold create_timeline
  rw [hm]
  with_unfolding_all rfl

end YTDemo
